import Mathlib

/-!
Shallow embedding of the peer-session negotiation engine of the
skillswap frontend (src/lib/hooks/use-webrtc.ts together with the
signaling wrapper src/lib/hooks/use-socket.ts).

The engine is single-threaded and event-driven: every handler runs to
completion before the next one is dispatched, so each handler is embedded
as a pure function from the engine state to a new engine state together
with the ordered list of observable actions (media-engine operations and
outbound signaling emissions) it performed, in the order the source
performs them.

Media tracks are mutable objects shared between streams and RTP senders
in the source, so they are modelled as a heap (a list of `Track` records
keyed by `id`); streams and senders hold track ids into that heap.
-/

namespace SkillSwap

/-- Kind of a media track: audio or video. -/
inductive TrackKind where
  | audio
  | video
deriving DecidableEq, Repr

/-- A media track object: identity, kind, the mutable `enabled` flag
(mute / camera-off) and the mutable `stopped` flag (`track.stop()`). -/
structure Track where
  id : Nat
  kind : TrackKind
  enabled : Bool
  stopped : Bool
deriving DecidableEq, Repr

/-- Kind of a negotiation descriptor. -/
inductive DescKind where
  | offer
  | answer
deriving DecidableEq, Repr

/-- A negotiation descriptor (SDP offer or answer); its payload is opaque
to the engine, produced and consumed by the media engine. -/
structure Desc where
  kind : DescKind
  payload : Nat
deriving DecidableEq, Repr

/-- An RTP sender on the peer connection; holds the track it is currently
sending (`replaceTrack` swaps it in place). -/
structure Sender where
  trackId : Option Nat
deriving DecidableEq, Repr

/-- The RTCPeerConnection object as the engine observes it: the remote and
local descriptors, the senders, and the list of ICE candidates that have
been applied to it via `addIceCandidate`, in application order. -/
structure PC where
  remoteDesc : Option Desc
  localDesc : Option Desc
  senders : List Sender
  applied : List Nat
deriving DecidableEq, Repr

/-- One entry of the chat log (`id` and `timestamp` are environment
generated and irrelevant to the claims, so they are omitted). -/
structure ChatEntry where
  text : String
  self : Bool
deriving DecidableEq, Repr

/-- Observable actions of a handler, in the order the source performs
them: media-engine operations and outbound signaling emissions. -/
inductive Action where
  | setRemoteDesc (d : Desc)
  | applyCandidate (c : Nat)
  | sendOffer (d : Desc)
  | sendAnswer (d : Desc)
  | sendMediaState (audio video : Bool)
  | appendLocalChat (text : String)
  | sendChat (text : String)
  | sendEndSession
  | sendLeaveSession
  | disconnectSocket
  | stopTrack (id : Nat)
  | closePC
  | notifySessionEnded (who : String)
  | acquireMedia
  | createPCObj
  | connectSocket
  | joinSessionReq
deriving DecidableEq, Repr

/-- The engine state: the mutable refs of use-webrtc.ts
(`peerConnectionRef`, `localStreamRef`, `cameraStreamRef`,
`screenStreamRef`, `isInitiatorRef`, `iceCandidatesQueueRef`,
`hasRemoteDescriptionRef`), the socket ref of use-socket.ts
(`socketPresent` models `socketRef.current !== null`), and the React
state fields the claims mention. The track heap holds every track object
ever created, keyed by id. -/
structure EngineState where
  trackHeap : List Track
  pc : Option PC
  localStream : Option (List Nat)
  cameraStream : Option (List Nat)
  screenStream : Option (List Nat)
  isInitiator : Bool
  iceCandidatesQueue : List Nat
  hasRemoteDescription : Bool
  socketPresent : Bool
  isAudioEnabled : Bool
  isVideoEnabled : Bool
  isScreenSharing : Bool
  connectionState : String
  chatLog : List ChatEntry
  remoteStreamPresent : Bool
  peerDisplayName : Option String
  peerMediaState : Option (Bool × Bool)
deriving DecidableEq, Repr

/-- Look a track up in the heap by id (first match, as the heap never
holds two tracks with the same id in any reachable state). -/
def findTrack (heap : List Track) (i : Nat) : Option Track :=
  heap.find? (fun t => t.id == i)

/-- Kind of the track with the given id, if present. -/
def kindOf (heap : List Track) (i : Nat) : Option TrackKind :=
  (findTrack heap i).map (fun t => t.kind)

/-- Enabled flag of the track with the given id. -/
def enabledOf (heap : List Track) (i : Nat) : Bool :=
  ((findTrack heap i).map (fun t => t.enabled)).getD false

/-- Stopped flag of the track with the given id. -/
def stoppedOf (heap : List Track) (i : Nat) : Bool :=
  ((findTrack heap i).map (fun t => t.stopped)).getD true

/-- Mark every track whose id is in `ids` as stopped
(`stream.getTracks().forEach(t => t.stop())`). -/
def stopIds (heap : List Track) (ids : List Nat) : List Track :=
  heap.map (fun t => if ids.contains t.id then { t with stopped := true } else t)

/-- Set the enabled flag of the track with the given id. -/
def setEnabled (heap : List Track) (i : Nat) (b : Bool) : List Track :=
  heap.map (fun t => if t.id == i then { t with enabled := b } else t)

/-- First track of the given kind among the ids of a stream
(`stream.getAudioTracks()[0]` / `stream.getVideoTracks()[0]`). -/
def firstOfKind (heap : List Track) (ids : List Nat) (k : TrackKind) : Option Nat :=
  ids.find? (fun i => kindOf heap i == some k)

/-- The media engine produces the answer for an offer; its contents are
opaque to the engine, so it is modelled as carrying the offer payload. -/
def createAnswerFor (o : Desc) : Desc :=
  ⟨DescKind.answer, o.payload⟩

/-- The local offer the media engine produces (opaque payload). -/
def localOffer : Desc :=
  ⟨DescKind.offer, 0⟩

/-- Payload of an inbound `offer` event. -/
structure OfferData where
  offer : Desc
  fromName : String
deriving DecidableEq, Repr

/-- Payload of an inbound `answer` event. -/
structure AnswerData where
  answer : Desc
  fromName : String
deriving DecidableEq, Repr

/-- handleOffer of use-webrtc.ts: with no peer connection, return at once;
otherwise set the remote descriptor, mark it present, apply every queued
ICE candidate in arrival order and clear the queue, then create the
answer, set it as the local descriptor and send it (the send goes through
socket.sendAnswer, which emits only while the socket ref is non-null). -/
def handleOffer (data : OfferData) (s : EngineState) : EngineState × List Action :=
  match s.pc with
  | none => (s, [])
  | some pc =>
    let queued := s.iceCandidatesQueue
    let ans := createAnswerFor data.offer
    ({ s with
        pc := some { pc with
          remoteDesc := some data.offer
          applied := pc.applied ++ queued
          localDesc := some ans }
        hasRemoteDescription := true
        iceCandidatesQueue := []
        peerDisplayName := some data.fromName },
     Action.setRemoteDesc data.offer ::
       (queued.map Action.applyCandidate ++
        if s.socketPresent then [Action.sendAnswer ans] else []))

/-- handleAnswer of use-webrtc.ts: with no peer connection, return at
once; otherwise set the remote descriptor, mark it present, apply every
queued ICE candidate in arrival order and clear the queue. -/
def handleAnswer (data : AnswerData) (s : EngineState) : EngineState × List Action :=
  match s.pc with
  | none => (s, [])
  | some pc =>
    let queued := s.iceCandidatesQueue
    ({ s with
        pc := some { pc with
          remoteDesc := some data.answer
          applied := pc.applied ++ queued }
        hasRemoteDescription := true
        iceCandidatesQueue := []
        peerDisplayName := some data.fromName },
     Action.setRemoteDesc data.answer :: queued.map Action.applyCandidate)

/-- handleIceCandidate of use-webrtc.ts: with no peer connection the
candidate is dropped; with no remote descriptor yet it is enqueued;
otherwise it is applied to the peer connection immediately. -/
def handleIceCandidate (c : Nat) (s : EngineState) : EngineState × List Action :=
  match s.pc with
  | none => (s, [])
  | some pc =>
    if s.hasRemoteDescription then
      ({ s with pc := some { pc with applied := pc.applied ++ [c] } },
       [Action.applyCandidate c])
    else
      ({ s with iceCandidatesQueue := s.iceCandidatesQueue ++ [c] }, [])

/-- Dispatch a sequence of inbound ICE candidate events, in order,
accumulating the performed actions. -/
def receiveCandidates (s : EngineState) : List Nat → EngineState × List Action
  | [] => (s, [])
  | c :: cs =>
    let r := handleIceCandidate c s
    let rest := receiveCandidates r.1 cs
    (rest.1, r.2 ++ rest.2)

/-- handleUserLeft of use-webrtc.ts: close the peer connection if one
exists and clear the remote stream, the connection state and the peer
info. It touches neither the ICE candidate queue, nor the
remote-description flag, nor the local media tracks, and it neither
notifies the session-ended callback nor emits any signaling event. -/
def handleUserLeft (s : EngineState) : EngineState × List Action :=
  let closed :=
    match s.pc with
    | some _ => ({ s with pc := none }, [Action.closePC])
    | none => (s, ([] : List Action))
  ({ closed.1 with
      remoteStreamPresent := false
      connectionState := "new"
      peerDisplayName := none
      peerMediaState := none },
   closed.2)

/-- handleSessionEnded of use-webrtc.ts: close the peer connection, stop
the screen, camera and local streams, reset the negotiation refs and the
React state, and notify the onSessionEnded callback with the ending
peer's name. It does not emit any outbound signaling event. -/
def handleSessionEnded (endedBy : String) (s : EngineState) : EngineState × List Action :=
  let pcActs : List Action :=
    match s.pc with
    | some _ => [Action.closePC]
    | none => []
  let scrIds := s.screenStream.getD []
  let h1 := stopIds s.trackHeap scrIds
  let camIds := s.cameraStream.getD []
  let h2 := stopIds h1 camIds
  let locIds := s.localStream.getD []
  let h3 := stopIds h2 locIds
  ({ s with
      trackHeap := h3
      pc := none
      screenStream := none
      cameraStream := none
      localStream := none
      hasRemoteDescription := false
      iceCandidatesQueue := []
      isAudioEnabled := true
      isVideoEnabled := true
      isScreenSharing := false
      connectionState := "new"
      isInitiator := false
      remoteStreamPresent := false
      peerDisplayName := none
      peerMediaState := none },
   pcActs ++ scrIds.map Action.stopTrack ++ camIds.map Action.stopTrack ++
     locIds.map Action.stopTrack ++ [Action.notifySessionEnded endedBy])

/-- createPeerConnection of use-webrtc.ts: build a fresh RTCPeerConnection
and add every track of the current local stream to it (one sender per
track, in stream order). -/
def createPeerConnection (s : EngineState) : EngineState × List Action :=
  let senders := (s.localStream.getD []).map (fun i => Sender.mk (some i))
  ({ s with pc := some ⟨none, none, senders, []⟩ }, [Action.createPCObj])

/-- createOffer of use-webrtc.ts: create a peer connection if none exists,
create the offer, set it as the local descriptor and send it
(socket.sendOffer emits only while the socket ref is non-null). -/
def createOffer (s : EngineState) : EngineState × List Action :=
  let built :=
    match s.pc with
    | some _ => (s, ([] : List Action))
    | none => createPeerConnection s
  match built.1.pc with
  | none => built
  | some pc =>
    ({ built.1 with pc := some { pc with localDesc := some localOffer } },
     built.2 ++ if built.1.socketPresent then [Action.sendOffer localOffer] else [])

/-- handleReadyToConnect of use-webrtc.ts: only the initiator creates the
offer; the responder does nothing and waits for the inbound offer. -/
def handleReadyToConnect (s : EngineState) : EngineState × List Action :=
  if s.isInitiator then createOffer s else (s, [])

/-- The onSessionJoined callback of use-webrtc.ts: record the
isInitiator flag from the signaling layer's session-joined
acknowledgment. -/
def onSessionJoined (isInit : Bool) (s : EngineState) : EngineState :=
  { s with isInitiator := isInit }

/-- Modelled from the spec: the signaling relay (a separate backend, not
part of this repository's sources) acknowledges join-session with a
session-joined event whose isInitiator flag is true for the first
participant to join the session and false for every later joiner. -/
def serverIsInitiator (joinIndex : Nat) : Bool :=
  joinIndex == 0

/-- Whitespace as String.prototype.trim removes it: WhiteSpace and
LineTerminator code points of the JS spec. -/
def jsWs (c : Char) : Bool :=
  [0x9, 0xA, 0xB, 0xC, 0xD, 0x20, 0xA0, 0x1680, 0x2000, 0x2001, 0x2002,
   0x2003, 0x2004, 0x2005, 0x2006, 0x2007, 0x2008, 0x2009, 0x200A, 0x2028,
   0x2029, 0x202F, 0x205F, 0x3000, 0xFEFF].contains c.toNat

/-- message.trim() of JS on the model of strings as char lists. -/
def jsTrim (t : List Char) : List Char :=
  ((t.dropWhile jsWs).reverse.dropWhile jsWs).reverse

/-- sendChatMessage of use-webrtc.ts: trim the text; if nothing is left,
return silently; otherwise append the trimmed message to the local chat
log as self and then transmit it (socket.sendChatMessage emits only while
the socket ref is non-null). -/
def sendChatMessage (msg : String) (s : EngineState) : EngineState × List Action :=
  let trimmed := String.mk (jsTrim msg.data)
  if trimmed = "" then (s, [])
  else
    ({ s with chatLog := s.chatLog ++ [⟨trimmed, true⟩] },
     Action.appendLocalChat trimmed ::
       if s.socketPresent then [Action.sendChat trimmed] else [])

/-- The environment a startSession run observes: the outcome of
getUserMedia (the granted audio and video tracks, or none when the
browser denies access) and whether an auth token is available to the
socket layer's connect. -/
structure MediaEnv where
  userMedia : Option (Track × Track)
  hasToken : Bool
deriving Repr

/-- initializeMedia of use-webrtc.ts: request camera and microphone; on
success record the granted stream as both the camera stream and the local
stream and reset the toggle state; on denial fail (the caller's catch
sees the throw). -/
def initializeMedia (env : MediaEnv) (s : EngineState) : Option (EngineState × List Action) :=
  match env.userMedia with
  | none => none
  | some (a, v) =>
    some ({ s with
        trackHeap := s.trackHeap ++ [a, v]
        cameraStream := some [a.id, v.id]
        localStream := some [a.id, v.id]
        isAudioEnabled := true
        isVideoEnabled := true
        isScreenSharing := false },
      [Action.acquireMedia])

/-- connect of use-socket.ts: with no auth token, record the error and
return without creating a socket; otherwise create the socket (the ref
becomes non-null). -/
def socketConnect (env : MediaEnv) (s : EngineState) : EngineState × List Action :=
  if env.hasToken then ({ s with socketPresent := true }, [Action.connectSocket])
  else (s, [])

/-- joinSession of use-socket.ts: emit join-session if the socket ref is
non-null, else do nothing. -/
def joinSessionEmit (s : EngineState) : List Action :=
  if s.socketPresent then [Action.joinSessionReq] else []

/-- startSession of use-webrtc.ts: initialize media, create the peer
connection, connect the socket, request join-session, and then (from the
timer) request join-session once more. A media failure is caught and
aborts the remaining steps. -/
def startSession (env : MediaEnv) (s : EngineState) : EngineState × List Action :=
  match initializeMedia env s with
  | none => (s, [])
  | some (s1, a1) =>
    let built := createPeerConnection s1
    let conn := socketConnect env built.1
    let j1 := joinSessionEmit conn.1
    let j2 := joinSessionEmit conn.1
    (conn.1, a1 ++ built.2 ++ conn.2 ++ j1 ++ j2)

/-- endSession of use-webrtc.ts: stop the screen, camera and local
streams (in that order), close the peer connection, emit end-session,
leave-session and disconnect the socket (each emission guarded by the
socket ref, which disconnect nulls), and reset the negotiation refs and
the React state. -/
def endSession (s : EngineState) : EngineState × List Action :=
  let scrIds := s.screenStream.getD []
  let h1 := stopIds s.trackHeap scrIds
  let camIds := s.cameraStream.getD []
  let h2 := stopIds h1 camIds
  let locIds := s.localStream.getD []
  let h3 := stopIds h2 locIds
  let pcActs : List Action :=
    match s.pc with
    | some _ => [Action.closePC]
    | none => []
  let sockActs : List Action :=
    if s.socketPresent then
      [Action.sendEndSession, Action.sendLeaveSession, Action.disconnectSocket]
    else []
  ({ s with
      trackHeap := h3
      screenStream := none
      cameraStream := none
      localStream := none
      pc := none
      socketPresent := false
      hasRemoteDescription := false
      iceCandidatesQueue := []
      isAudioEnabled := true
      isVideoEnabled := true
      isScreenSharing := false
      connectionState := "new"
      isInitiator := false
      remoteStreamPresent := false
      peerDisplayName := none
      peerMediaState := none },
   scrIds.map Action.stopTrack ++ camIds.map Action.stopTrack ++
     locIds.map Action.stopTrack ++ pcActs ++ sockActs)

/-- toggleAudio of use-webrtc.ts: if a local stream with an audio track
exists, flip that track's enabled flag, record the new state, and send
the media-state event carrying the new audio state and the current video
state. -/
def toggleAudio (s : EngineState) : EngineState × List Action :=
  match s.localStream with
  | none => (s, [])
  | some ids =>
    match firstOfKind s.trackHeap ids TrackKind.audio with
    | none => (s, [])
    | some aid =>
      let newState := !(enabledOf s.trackHeap aid)
      ({ s with
          trackHeap := setEnabled s.trackHeap aid newState
          isAudioEnabled := newState },
       if s.socketPresent then [Action.sendMediaState newState s.isVideoEnabled] else [])

/-- toggleVideo of use-webrtc.ts: if a local stream with a video track
exists, flip that track's enabled flag, record the new state, and send
the media-state event carrying the current audio state and the new video
state. -/
def toggleVideo (s : EngineState) : EngineState × List Action :=
  match s.localStream with
  | none => (s, [])
  | some ids =>
    match firstOfKind s.trackHeap ids TrackKind.video with
    | none => (s, [])
    | some vd =>
      let newState := !(enabledOf s.trackHeap vd)
      ({ s with
          trackHeap := setEnabled s.trackHeap vd newState
          isVideoEnabled := newState },
       if s.socketPresent then [Action.sendMediaState s.isAudioEnabled newState] else [])

/-- Whether a sender currently sends a video-kind track
(`s.track?.kind === "video"`). -/
def isVideoSenderB (heap : List Track) (sn : Sender) : Bool :=
  match sn.trackId with
  | none => false
  | some i => kindOf heap i == some TrackKind.video

/-- getVideoSender of use-webrtc.ts returns the first video sender, or
null; this tests whether one exists. -/
def hasVideoSender (heap : List Track) (senders : List Sender) : Bool :=
  senders.any (isVideoSenderB heap)

/-- sender.replaceTrack on the first video sender: swap its track in
place, leaving every other sender untouched. -/
def replaceTrackFirstVideo (heap : List Track) : List Sender → Nat → List Sender
  | [], _ => []
  | sn :: rest, nid =>
    if isVideoSenderB heap sn then ⟨some nid⟩ :: rest
    else sn :: replaceTrackFirstVideo heap rest nid

/-- setLocalPreviewStream of use-webrtc.ts: rebuild the local preview
stream from the camera stream's audio track plus the given video track,
applying the current enable state to both. -/
def setLocalPreviewStream (vid : Option Nat) (s : EngineState) : EngineState :=
  let aud :=
    match s.cameraStream with
    | none => none
    | some ids => firstOfKind s.trackHeap ids TrackKind.audio
  let ids :=
    (match aud with | some a => [a] | none => []) ++
    (match vid with | some v => [v] | none => [])
  let h1 :=
    match aud with
    | some a => setEnabled s.trackHeap a s.isAudioEnabled
    | none => s.trackHeap
  let h2 :=
    match vid with
    | some v => setEnabled h1 v s.isVideoEnabled
    | none => h1
  { s with trackHeap := h2, localStream := some ids }

/-- stopScreenShare of use-webrtc.ts: if not screen sharing, do nothing;
otherwise stop and drop the screen stream, and when a camera video track
exists, replace the video sender's track with it and rebuild the local
preview stream around it; finally record that screen sharing is off. -/
def stopScreenShare (s : EngineState) : EngineState × List Action :=
  if s.isScreenSharing then
    let camVid :=
      match s.cameraStream with
      | none => none
      | some ids => firstOfKind s.trackHeap ids TrackKind.video
    let scrIds := s.screenStream.getD []
    let s1 := { s with trackHeap := stopIds s.trackHeap scrIds, screenStream := none }
    let stopActs := scrIds.map Action.stopTrack
    match camVid with
    | none => ({ s1 with isScreenSharing := false }, stopActs)
    | some cv =>
      let s2 :=
        match s1.pc with
        | none => s1
        | some pc =>
          if hasVideoSender s1.trackHeap pc.senders then
            { s1 with pc := some { pc with senders := replaceTrackFirstVideo s1.trackHeap pc.senders cv } }
          else s1
      let s3 := setLocalPreviewStream (some cv) s2
      ({ s3 with isScreenSharing := false }, stopActs)
  else (s, [])

/-- The environment a toggleScreenShare run observes: whether the page is
a secure context, whether getDisplayMedia exists, and the granted screen
video track (none when the user denies the picker or the grant carries no
video track). -/
structure ScreenEnv where
  secureContext : Bool
  displayMediaSupported : Bool
  screenGrant : Option Track
deriving Repr

/-- toggleScreenShare of use-webrtc.ts: while sharing, delegate to
stopScreenShare. Otherwise, bail out on an insecure context or missing
getDisplayMedia; initialize media first when no camera stream exists;
request the screen capture; and if a video sender exists on the peer
connection, replace its track with the screen track and rebuild the
preview stream, else stop the fresh capture and report an error. -/
def toggleScreenShare (menv : MediaEnv) (env : ScreenEnv) (s : EngineState) :
    EngineState × List Action :=
  if s.isScreenSharing then stopScreenShare s
  else if !env.secureContext then (s, [])
  else if !env.displayMediaSupported then (s, [])
  else
    let init :=
      if s.cameraStream.isNone then initializeMedia menv s
      else some (s, [])
    match init with
    | none => (s, [])
    | some (s1, a1) =>
      match env.screenGrant with
      | none => (s1, a1)
      | some scrTrack =>
        let h := s1.trackHeap ++ [scrTrack]
        let s2 := { s1 with trackHeap := h, screenStream := some [scrTrack.id] }
        match s2.pc with
        | none =>
          ({ s2 with trackHeap := stopIds h [scrTrack.id], screenStream := none },
           a1 ++ [Action.stopTrack scrTrack.id])
        | some pc =>
          if hasVideoSender h pc.senders then
            let s3 := { s2 with
              pc := some { pc with senders := replaceTrackFirstVideo h pc.senders scrTrack.id } }
            let s4 := setLocalPreviewStream (some scrTrack.id) s3
            ({ s4 with isScreenSharing := true }, a1)
          else
            ({ s2 with trackHeap := stopIds h [scrTrack.id], screenStream := none },
             a1 ++ [Action.stopTrack scrTrack.id])

/-- Whether an action is the sendAnswer emission. -/
def isSendAnswer : Action → Bool
  | Action.sendAnswer _ => true
  | _ => false

/-- Whether an action is an ICE candidate application. -/
def isApplyCandidate : Action → Bool
  | Action.applyCandidate _ => true
  | _ => false

/-- Whether an action is the sendOffer emission. -/
def isSendOffer : Action → Bool
  | Action.sendOffer _ => true
  | _ => false

/-- Whether an action belongs to an offer/answer negotiation round trip
(descriptor application, offer/answer emission, or building a fresh peer
connection). -/
def isNegotiation : Action → Bool
  | Action.setRemoteDesc _ => true
  | Action.sendOffer _ => true
  | Action.sendAnswer _ => true
  | Action.createPCObj => true
  | _ => false

/-- The trace order the claim about handleOffer asserts: every sendAnswer
emission precedes every candidate application. -/
def answerBeforeFlush (t : List Action) : Prop :=
  ∀ i j : Fin t.length,
    isSendAnswer (t.get i) = true → isApplyCandidate (t.get j) = true → i.val < j.val

/-- Track ids currently held by the peer connection's senders, in sender
order. -/
def senderIds (s : EngineState) : List (Option Nat) :=
  (match s.pc with | some pc => pc.senders | none => []).map Sender.trackId

/-- The remote and local descriptors of the peer connection, if one
exists. -/
def pcDescs (s : EngineState) : Option (Option Desc × Option Desc) :=
  s.pc.map (fun pc => (pc.remoteDesc, pc.localDesc))

/-- A state before startSession: no tracks, no peer connection, no
socket. -/
def emptyState : EngineState :=
  ⟨[], none, none, none, none, false, [], false, false, true, true, false, "new", [],
   false, none, none⟩

/-- A sample peer connection with an audio sender (track 0) and a video
sender (track 1). -/
def pc0 : PC :=
  ⟨none, some localOffer, [⟨some 0⟩, ⟨some 1⟩], []⟩

/-- A live state: media acquired (audio track 0, video track 1), peer
connection up, socket connected, no remote descriptor yet. -/
def liveState : EngineState :=
  ⟨[⟨0, TrackKind.audio, true, false⟩, ⟨1, TrackKind.video, true, false⟩],
   some pc0, some [0, 1], some [0, 1], none, true, [], false, true, true, true, false,
   "connecting", [], false, none, none⟩

/-- liveState with one ICE candidate (5) already buffered. -/
def bufferedState : EngineState :=
  { liveState with iceCandidatesQueue := [5] }

/-- liveState after a completed negotiation, with a leftover buffered
candidate (7) and the remote descriptor applied. -/
def negotiatedState : EngineState :=
  { liveState with iceCandidatesQueue := [7], hasRemoteDescription := true }

/-- A connected two-track state parametrized by the audio and video track
ids and their enabled flags: camera stream and local stream share the
tracks, and the peer connection has one audio and one video sender. -/
def connState (aid vid : Nat) (aen ven : Bool) : EngineState :=
  { trackHeap := [⟨aid, TrackKind.audio, aen, false⟩, ⟨vid, TrackKind.video, ven, false⟩]
    pc := some ⟨some ⟨DescKind.offer, 3⟩, some ⟨DescKind.answer, 3⟩,
      [⟨some aid⟩, ⟨some vid⟩], [4]⟩
    localStream := some [aid, vid]
    cameraStream := some [aid, vid]
    screenStream := none
    isInitiator := true
    iceCandidatesQueue := []
    hasRemoteDescription := true
    socketPresent := true
    isAudioEnabled := aen
    isVideoEnabled := ven
    isScreenSharing := false
    connectionState := "connected"
    chatLog := []
    remoteStreamPresent := true
    peerDisplayName := some "peer"
    peerMediaState := none }

/-- Sample granted audio track for witnesses. -/
def tAudio : Track :=
  ⟨0, TrackKind.audio, true, false⟩

/-- Sample granted video track for witnesses. -/
def tVideo : Track :=
  ⟨1, TrackKind.video, true, false⟩

/-- Sample startSession environment for witnesses: media granted, auth
token available. -/
def env0 : MediaEnv :=
  ⟨some (tAudio, tVideo), true⟩

/-- A granted screen-capture video track with the given id. -/
def screenTrack (sid : Nat) : Track :=
  ⟨sid, TrackKind.video, true, false⟩

/-- Screen-share environment: secure context, getDisplayMedia available,
capture granted with the given track. -/
def screenEnv (sid : Nat) : ScreenEnv :=
  ⟨true, true, some (screenTrack sid)⟩

/-- Media environment used where getUserMedia is never reached. -/
def noMediaEnv : MediaEnv :=
  ⟨none, true⟩

/-- Switching the source to screen capture on a connected two-track
state. -/
def shareOn (aid vid sid : Nat) (aen ven : Bool) : EngineState × List Action :=
  toggleScreenShare noMediaEnv (screenEnv sid) (connState aid vid aen ven)

/-- Switching the source back to the camera afterwards. -/
def shareOff (aid vid sid : Nat) (aen ven : Bool) : EngineState × List Action :=
  stopScreenShare (shareOn aid vid sid aen ven).1

lemma receiveCandidates_blocked (cs : List Nat) :
    ∀ (s : EngineState) (pc : PC), s.pc = some pc → s.hasRemoteDescription = false →
      receiveCandidates s cs =
        ({ s with iceCandidatesQueue := s.iceCandidatesQueue ++ cs }, []) := by
  induction cs with
  | nil =>
    intro s pc hpc hnr
    simp [receiveCandidates]
  | cons c cs ih =>
    intro s pc hpc hnr
    have hstep : handleIceCandidate c s =
        ({ s with iceCandidatesQueue := s.iceCandidatesQueue ++ [c] }, []) := by
      simp [handleIceCandidate, hpc, hnr]
    have ihs := ih { s with iceCandidatesQueue := s.iceCandidatesQueue ++ [c] } pc hpc hnr
    simp [receiveCandidates, hstep, ihs]

lemma count_applyCandidate_map (l : List Nat) (c : Nat) :
    (l.map Action.applyCandidate).count (Action.applyCandidate c) = l.count c := by
  induction l with
  | nil => rfl
  | cons x xs ih =>
    by_cases h : x = c
    · subst h
      simp [List.count_cons, ih]
    · simp [List.count_cons, ih, h]

/-- C1: candidates that arrive while no remote descriptor is present are
enqueued in arrival order and not applied; once the answer sets the
remote descriptor, the buffered candidates are applied to the peer
connection in their original arrival order (each exactly once) and the
buffer is left empty; a candidate that arrives while the remote
descriptor is present is applied immediately and never buffered. -/
theorem candidate_buffer_protocol (s : EngineState) (pc : PC) (cs : List Nat)
    (d : AnswerData) (hpc : s.pc = some pc) (hnr : s.hasRemoteDescription = false) :
    receiveCandidates s cs =
      ({ s with iceCandidatesQueue := s.iceCandidatesQueue ++ cs }, []) ∧
    handleAnswer d (receiveCandidates s cs).1 =
      ({ s with
          pc := some { pc with
            remoteDesc := some d.answer
            applied := pc.applied ++ (s.iceCandidatesQueue ++ cs) }
          hasRemoteDescription := true
          iceCandidatesQueue := []
          peerDisplayName := some d.fromName },
       Action.setRemoteDesc d.answer ::
         (s.iceCandidatesQueue ++ cs).map Action.applyCandidate) ∧
    (∀ c : Nat,
      (handleAnswer d (receiveCandidates s cs).1).2.count (Action.applyCandidate c) =
        (s.iceCandidatesQueue ++ cs).count c) ∧
    (∀ (s2 : EngineState) (pc2 : PC) (c : Nat),
      s2.pc = some pc2 → s2.hasRemoteDescription = true →
      handleIceCandidate c s2 =
        ({ s2 with pc := some { pc2 with applied := pc2.applied ++ [c] } },
         [Action.applyCandidate c])) ∧
    (∀ od : OfferData,
      (handleOffer od (receiveCandidates s cs).1).1.iceCandidatesQueue = [] ∧
      (handleOffer od (receiveCandidates s cs).1).1.pc =
        some { pc with
          remoteDesc := some od.offer
          applied := pc.applied ++ (s.iceCandidatesQueue ++ cs)
          localDesc := some (createAnswerFor od.offer) }) := by
  have hrecv := receiveCandidates_blocked cs s pc hpc hnr
  refine ⟨hrecv, ?_, ?_, ?_, ?_⟩
  · rw [hrecv]
    simp [handleAnswer, hpc]
  · intro c
    rw [hrecv]
    simp [handleAnswer, hpc, List.count_cons, count_applyCandidate_map]
  · intro s2 pc2 c hpc2 hr2
    simp [handleIceCandidate, hpc2, hr2]
  · intro od
    rw [hrecv]
    simp [handleOffer, hpc]

theorem candidate_buffer_protocol_witness :
    liveState.pc = some pc0 ∧ liveState.hasRemoteDescription = false ∧
    receiveCandidates liveState [5, 6, 7] =
      ({ liveState with iceCandidatesQueue := [5, 6, 7] }, []) ∧
    (handleAnswer ⟨⟨DescKind.answer, 9⟩, "B"⟩ (receiveCandidates liveState [5, 6, 7]).1).2 =
      [Action.setRemoteDesc ⟨DescKind.answer, 9⟩, Action.applyCandidate 5,
       Action.applyCandidate 6, Action.applyCandidate 7] :=
  have h := candidate_buffer_protocol liveState pc0 [5, 6, 7]
    ⟨⟨DescKind.answer, 9⟩, "B"⟩ rfl rfl
  ⟨rfl, rfl, h.1, by rw [h.2.1]; rfl⟩

/-- C10: when no peer connection exists, the offer, answer and ICE
candidate handlers return without changing any state and without
performing any action: the candidate is dropped rather than enqueued, no
answer is created or sent, and the remote-description flag is
unchanged. -/
theorem handlers_noop_without_pc (s : EngineState) (hpc : s.pc = none) :
    (∀ d : OfferData, handleOffer d s = (s, [])) ∧
    (∀ d : AnswerData, handleAnswer d s = (s, [])) ∧
    (∀ c : Nat, handleIceCandidate c s = (s, [])) := by
  refine ⟨?_, ?_, ?_⟩ <;> intro x <;>
    simp [handleOffer, handleAnswer, handleIceCandidate, hpc]

theorem handlers_noop_without_pc_witness :
    emptyState.pc = none ∧
    handleIceCandidate 3 emptyState = (emptyState, []) ∧
    handleOffer ⟨⟨DescKind.offer, 1⟩, "A"⟩ emptyState = (emptyState, []) :=
  have h := handlers_noop_without_pc emptyState rfl
  ⟨rfl, h.2.2 3, h.1 ⟨⟨DescKind.offer, 1⟩, "A"⟩⟩

/-- C2 counterexample: with a peer connection present and one buffered
candidate, handleOffer flushes the candidate buffer before emitting the
answer, so the claimed order (create and send the answer, then flush) is
false: the trace is setRemoteDesc, applyCandidate 5, sendAnswer. -/
theorem handleOffer_claimed_order_false :
    (handleOffer ⟨⟨DescKind.offer, 1⟩, "A"⟩ bufferedState).2 =
      [Action.setRemoteDesc ⟨DescKind.offer, 1⟩, Action.applyCandidate 5,
       Action.sendAnswer ⟨DescKind.answer, 1⟩] ∧
    ¬ answerBeforeFlush (handleOffer ⟨⟨DescKind.offer, 1⟩, "A"⟩ bufferedState).2 := by
  constructor
  · rfl
  · intro hcl
    have := hcl ⟨2, by decide⟩ ⟨1, by decide⟩ (by decide) (by decide)
    simp at this

/-- C2 (amended): on receiving an offer while a peer connection exists
and the socket is up, the engine applies the offer as the remote
descriptor, marks remote-descriptor-present true, applies the buffered
candidates in arrival order and empties the buffer, and then creates and
sends the local answer descriptor — the flush happens before the answer
is sent, not after. -/
theorem handleOffer_step_order (s : EngineState) (pc : PC) (d : OfferData)
    (hpc : s.pc = some pc) (hsock : s.socketPresent = true) :
    handleOffer d s =
      ({ s with
          pc := some { pc with
            remoteDesc := some d.offer
            applied := pc.applied ++ s.iceCandidatesQueue
            localDesc := some (createAnswerFor d.offer) }
          hasRemoteDescription := true
          iceCandidatesQueue := []
          peerDisplayName := some d.fromName },
       Action.setRemoteDesc d.offer ::
         (s.iceCandidatesQueue.map Action.applyCandidate ++
          [Action.sendAnswer (createAnswerFor d.offer)])) := by
  simp [handleOffer, hpc, hsock]

theorem handleOffer_step_order_witness :
    bufferedState.pc = some pc0 ∧ bufferedState.socketPresent = true ∧
    handleOffer ⟨⟨DescKind.offer, 2⟩, "A"⟩ bufferedState =
      ({ bufferedState with
          pc := some { pc0 with
            remoteDesc := some ⟨DescKind.offer, 2⟩
            applied := [5]
            localDesc := some ⟨DescKind.answer, 2⟩ }
          hasRemoteDescription := true
          iceCandidatesQueue := []
          peerDisplayName := some "A" },
       [Action.setRemoteDesc ⟨DescKind.offer, 2⟩, Action.applyCandidate 5,
        Action.sendAnswer ⟨DescKind.answer, 2⟩]) :=
  ⟨rfl, rfl, handleOffer_step_order bufferedState pc0 ⟨⟨DescKind.offer, 2⟩, "A"⟩ rfl rfl⟩

/-- C4 counterexample: on a state with a buffered candidate (7) and the
remote-descriptor flag set, handleUserLeft leaves the candidate buffer
and the remote-descriptor flag untouched, so the claim that it clears the
buffer and resets the flag is false. -/
theorem handleUserLeft_keeps_negotiation_refs :
    (handleUserLeft negotiatedState).1.iceCandidatesQueue = [7] ∧
    (handleUserLeft negotiatedState).1.hasRemoteDescription = true ∧
    ¬ ((handleUserLeft negotiatedState).1.iceCandidatesQueue = [] ∧
       (handleUserLeft negotiatedState).1.hasRemoteDescription = false) := by
  refine ⟨rfl, rfl, ?_⟩
  intro hcl
  have h7 : ([7] : List Nat) = [] := hcl.1
  simp at h7

/-- C4 (amended): on a remote-peer-left signal the engine closes the peer
connection and clears the remote stream, the connection state and the
peer info, but it leaves the candidate buffer, the
remote-descriptor-present flag and every local media track unchanged; it
emits no signaling event, produces no SessionEndRecord and does not
notify the session-ended callback (the only performed action is closing
the peer connection, when one exists). -/
theorem handleUserLeft_resets_connection_only (s : EngineState) :
    (handleUserLeft s).1 =
      { s with
          pc := none
          remoteStreamPresent := false
          connectionState := "new"
          peerDisplayName := none
          peerMediaState := none } ∧
    (handleUserLeft s).1.iceCandidatesQueue = s.iceCandidatesQueue ∧
    (handleUserLeft s).1.hasRemoteDescription = s.hasRemoteDescription ∧
    (handleUserLeft s).1.trackHeap = s.trackHeap ∧
    (handleUserLeft s).1.localStream = s.localStream ∧
    (handleUserLeft s).2 =
      (match s.pc with | some _ => [Action.closePC] | none => []) ∧
    (∀ a ∈ (handleUserLeft s).2, a = Action.closePC) := by
  cases hpc : s.pc <;>
    simp [handleUserLeft, hpc]

/-- C5: with the signaling relay modelled from the spec as assigning the
Initiator role to the first joiner, participant A (join index 0) is
assigned Initiator and participant B (join index 1) Responder; on the
ready-to-connect signal A and only A creates a local offer descriptor and
sends it exactly once, while B performs nothing and its state is
unchanged. -/
theorem roles_and_offer (sA sB : EngineState) (hA : sA.socketPresent = true) :
    (onSessionJoined (serverIsInitiator 0) sA).isInitiator = true ∧
    (onSessionJoined (serverIsInitiator 1) sB).isInitiator = false ∧
    (handleReadyToConnect (onSessionJoined (serverIsInitiator 0) sA)).2.countP
      isSendOffer = 1 ∧
    (∃ pc : PC,
      (handleReadyToConnect (onSessionJoined (serverIsInitiator 0) sA)).1.pc = some pc ∧
      pc.localDesc = some localOffer) ∧
    handleReadyToConnect (onSessionJoined (serverIsInitiator 1) sB) =
      (onSessionJoined (serverIsInitiator 1) sB, []) := by
  cases hpc : sA.pc <;>
    simp [handleReadyToConnect, onSessionJoined, serverIsInitiator, createOffer,
      createPeerConnection, isSendOffer, hA, hpc]

theorem roles_and_offer_witness :
    liveState.socketPresent = true ∧
    (handleReadyToConnect (onSessionJoined (serverIsInitiator 0) liveState)).2.countP
      isSendOffer = 1 ∧
    handleReadyToConnect (onSessionJoined (serverIsInitiator 1) emptyState) =
      (onSessionJoined (serverIsInitiator 1) emptyState, []) :=
  have h := roles_and_offer liveState emptyState rfl
  ⟨rfl, h.2.2.1, h.2.2.2.2⟩

lemma stopIds_nil (h : List Track) : stopIds h [] = h := by
  simp [stopIds]

lemma stopIds_cons (t : Track) (rest : List Track) (ids : List Nat) :
    stopIds (t :: rest) ids =
      (if ids.contains t.id then { t with stopped := true } else t) :: stopIds rest ids :=
  rfl

lemma stoppedOf_cons (x : Track) (l : List Track) (i : Nat) :
    stoppedOf (x :: l) i = if x.id == i then x.stopped else stoppedOf l i := by
  cases hid : (x.id == i) <;> simp [stoppedOf, findTrack, List.find?_cons, hid]

lemma stoppedOf_stopIds_mem (ids : List Nat) (i : Nat) (hi : i ∈ ids) :
    ∀ h : List Track, stoppedOf (stopIds h ids) i = true := by
  intro h
  induction h with
  | nil => rfl
  | cons t rest ih =>
    rw [stopIds_cons, stoppedOf_cons]
    cases hc : ids.contains t.id with
    | true =>
      by_cases hid : t.id = i
      · simp [hc, hid]
      · simp [hc, hid, ih]
    | false =>
      by_cases hid : t.id = i
      · exfalso
        have hmem : ids.contains t.id = true := by
          rw [hid]
          simpa using hi
        rw [hmem] at hc
        cases hc
      · simp [hc, hid, ih]

lemma stoppedOf_stopIds_of_stopped (ids : List Nat) (i : Nat) :
    ∀ h : List Track, stoppedOf h i = true → stoppedOf (stopIds h ids) i = true := by
  intro h
  induction h with
  | nil =>
    intro hs
    exact hs
  | cons t rest ih =>
    intro hs
    rw [stoppedOf_cons] at hs
    rw [stopIds_cons, stoppedOf_cons]
    by_cases hid : t.id = i
    · simp [hid] at hs
      cases hc : ids.contains t.id <;> simp [hc, hid, hs]
    · simp [hid] at hs
      cases hc : ids.contains t.id <;> simp [hc, hid] <;> exact ih hs

lemma count_sendEnd_stopTrack (l : List Nat) :
    (l.map Action.stopTrack).count Action.sendEndSession = 0 := by
  rw [List.count_eq_zero]
  simp

lemma endSession_emit_count (s : EngineState) (hsock : s.socketPresent = true) :
    (endSession s).2.count Action.sendEndSession = 1 := by
  cases hpc : s.pc <;>
    simp [endSession, hpc, hsock, List.count_append, count_sendEnd_stopTrack,
      List.count_cons]

lemma handleSessionEnded_no_end_emit (who : String) (s : EngineState) :
    (handleSessionEnded who s).2.count Action.sendEndSession = 0 := by
  rw [List.count_eq_zero]
  cases hpc : s.pc <;> simp [handleSessionEnded, hpc]

lemma endSession_second_noop (s : EngineState) :
    endSession (endSession s).1 = ((endSession s).1, []) := by
  simp [endSession, stopIds_nil]

/-- C3: endSession stops the screen, camera and local streams, closes the
peer connection, emits end-session, leave-session and disconnect, in that
order; it is idempotent — a second call changes nothing and emits
nothing — so two local calls, or a local call racing a remote
session-ended signal in either order, emit the end-session notification
exactly once; afterwards every local media track is stopped, the stream
refs are cleared and the candidate buffer is empty. -/
theorem endSession_idempotent_once (s : EngineState) (hsock : s.socketPresent = true) :
    (endSession s).2 =
      (s.screenStream.getD []).map Action.stopTrack ++
      (s.cameraStream.getD []).map Action.stopTrack ++
      (s.localStream.getD []).map Action.stopTrack ++
      (match s.pc with | some _ => [Action.closePC] | none => []) ++
      [Action.sendEndSession, Action.sendLeaveSession, Action.disconnectSocket] ∧
    endSession (endSession s).1 = ((endSession s).1, []) ∧
    ((endSession s).2 ++ (endSession (endSession s).1).2).count Action.sendEndSession = 1 ∧
    ((endSession s).2 ++ (handleSessionEnded "peer" (endSession s).1).2).count
      Action.sendEndSession = 1 ∧
    ((handleSessionEnded "peer" s).2 ++
      (endSession (handleSessionEnded "peer" s).1).2).count Action.sendEndSession = 1 ∧
    (endSession s).1.localStream = none ∧
    (endSession s).1.cameraStream = none ∧
    (endSession s).1.screenStream = none ∧
    (endSession s).1.iceCandidatesQueue = [] ∧
    (∀ i, i ∈ s.screenStream.getD [] ++ s.cameraStream.getD [] ++ s.localStream.getD [] →
      stoppedOf (endSession s).1.trackHeap i = true) := by
  refine ⟨?_, endSession_second_noop s, ?_, ?_, ?_, rfl, rfl, rfl, rfl, ?_⟩
  · cases hpc : s.pc <;> simp [endSession, hpc, hsock]
  · rw [List.count_append, (congrArg Prod.snd (endSession_second_noop s) : _)]
    simp [endSession_emit_count s hsock]
  · rw [List.count_append, handleSessionEnded_no_end_emit]
    simp [endSession_emit_count s hsock]
  · rw [List.count_append, handleSessionEnded_no_end_emit]
    have hs2 : (handleSessionEnded "peer" s).1.socketPresent = true := hsock
    simp [endSession_emit_count _ hs2]
  · intro i hi
    have hheap : (endSession s).1.trackHeap =
        stopIds (stopIds (stopIds s.trackHeap (s.screenStream.getD []))
          (s.cameraStream.getD [])) (s.localStream.getD []) := rfl
    rw [hheap]
    rcases List.mem_append.mp hi with hi2 | hloc
    · rcases List.mem_append.mp hi2 with hscr | hcam
      · exact stoppedOf_stopIds_of_stopped _ _ _
          (stoppedOf_stopIds_of_stopped _ _ _ (stoppedOf_stopIds_mem _ _ hscr _))
      · exact stoppedOf_stopIds_of_stopped _ _ _ (stoppedOf_stopIds_mem _ _ hcam _)
    · exact stoppedOf_stopIds_mem _ _ hloc _

theorem endSession_idempotent_once_witness :
    liveState.socketPresent = true ∧
    ((endSession liveState).2 ++ (endSession (endSession liveState).1).2).count
      Action.sendEndSession = 1 :=
  ⟨rfl, (endSession_idempotent_once liveState rfl).2.2.1⟩

/-- C8: sendChatMessage with text whose trim is empty returns silently —
the state is unchanged and no action is performed; with non-whitespace
text it appends the trimmed message to the local chat log with self set,
before the transmit action, and the append does not depend on the socket
being available (the transmit is emitted exactly when it is). -/
theorem sendChatMessage_spec (msg : String) (s : EngineState) :
    (String.mk (jsTrim msg.data) = "" → sendChatMessage msg s = (s, [])) ∧
    (String.mk (jsTrim msg.data) ≠ "" →
      (sendChatMessage msg s).1 =
        { s with chatLog := s.chatLog ++ [⟨String.mk (jsTrim msg.data), true⟩] } ∧
      (sendChatMessage msg s).2 =
        Action.appendLocalChat (String.mk (jsTrim msg.data)) ::
          (if s.socketPresent then [Action.sendChat (String.mk (jsTrim msg.data))]
           else [])) := by
  constructor
  · intro hempty
    simp [sendChatMessage, hempty]
  · intro hne
    simp [sendChatMessage, hne]

theorem sendChatMessage_spec_witness :
    sendChatMessage "   " liveState = (liveState, []) ∧
    (sendChatMessage " hi " liveState).1.chatLog = [⟨"hi", true⟩] ∧
    (sendChatMessage " hi " liveState).2 =
      [Action.appendLocalChat "hi", Action.sendChat "hi"] :=
  have h1 := (sendChatMessage_spec "   " liveState).1 (by decide)
  have h2 := (sendChatMessage_spec " hi " liveState).2 (by decide)
  ⟨h1, by rw [h2.1]; rfl, by rw [h2.2]; rfl⟩

/-- C9: when media access is granted and an auth token is present,
startSession performs, in order: acquire local media, create the peer
connection, connect the socket, request join-session, and one delayed
retransmission of join-session — so the join request is emitted exactly
twice. -/
theorem startSession_spec (env : MediaEnv) (s : EngineState) (a v : Track)
    (hm : env.userMedia = some (a, v)) (ht : env.hasToken = true) :
    (startSession env s).2 =
      [Action.acquireMedia, Action.createPCObj, Action.connectSocket,
       Action.joinSessionReq, Action.joinSessionReq] ∧
    (startSession env s).2.count Action.joinSessionReq = 2 := by
  have htr : (startSession env s).2 =
      [Action.acquireMedia, Action.createPCObj, Action.connectSocket,
       Action.joinSessionReq, Action.joinSessionReq] := by
    simp [startSession, initializeMedia, createPeerConnection, socketConnect,
      joinSessionEmit, hm, ht]
  refine ⟨htr, ?_⟩
  rw [htr]
  rfl

theorem startSession_spec_witness :
    env0.userMedia = some (tAudio, tVideo) ∧ env0.hasToken = true ∧
    (startSession env0 emptyState).2.count Action.joinSessionReq = 2 :=
  ⟨rfl, rfl, (startSession_spec env0 emptyState tAudio tVideo rfl rfl).2⟩

/-- C7: on a connected state with one audio track (aid) and one video
track (vid), toggleAudio flips only the audio track's enabled flag and
announces the new audio state with the current video state; toggleVideo
then flips only the video track's enabled flag and announces the current
audio state with the new video state; neither track is replaced or
stopped, and the senders and local stream are untouched. -/
theorem toggles_independent (aid vid : Nat) (aen ven : Bool) (h : aid ≠ vid) :
    findTrack (toggleAudio (connState aid vid aen ven)).1.trackHeap aid =
      some ⟨aid, TrackKind.audio, !aen, false⟩ ∧
    findTrack (toggleAudio (connState aid vid aen ven)).1.trackHeap vid =
      some ⟨vid, TrackKind.video, ven, false⟩ ∧
    (toggleAudio (connState aid vid aen ven)).2 = [Action.sendMediaState (!aen) ven] ∧
    findTrack (toggleVideo (toggleAudio (connState aid vid aen ven)).1).1.trackHeap aid =
      some ⟨aid, TrackKind.audio, !aen, false⟩ ∧
    findTrack (toggleVideo (toggleAudio (connState aid vid aen ven)).1).1.trackHeap vid =
      some ⟨vid, TrackKind.video, !ven, false⟩ ∧
    (toggleVideo (toggleAudio (connState aid vid aen ven)).1).2 =
      [Action.sendMediaState (!aen) (!ven)] ∧
    senderIds (toggleVideo (toggleAudio (connState aid vid aen ven)).1).1 =
      senderIds (connState aid vid aen ven) ∧
    (toggleVideo (toggleAudio (connState aid vid aen ven)).1).1.localStream =
      some [aid, vid] := by
  have hne : (vid == aid) = false := by
    simpa using (Ne.symm h)
  have hne2 : (aid == vid) = false := by
    simpa using h
  simp [toggleAudio, toggleVideo, connState, firstOfKind, kindOf, findTrack,
    enabledOf, setEnabled, senderIds, List.find?_cons, hne, hne2, h, Ne.symm h]

theorem toggles_independent_witness :
    (0 : Nat) ≠ 1 ∧
    (toggleAudio (connState 0 1 true true)).2 = [Action.sendMediaState false true] ∧
    (toggleVideo (toggleAudio (connState 0 1 true true)).1).2 =
      [Action.sendMediaState false false] :=
  have h := toggles_independent 0 1 true true (by decide)
  ⟨by decide, h.2.2.1, h.2.2.2.2.2.1⟩

/-- C6: on a connected state with audio track aid and video track vid,
switching Camera to ScreenCapture and back replaces only the video
sender's track in place (aid's sender is untouched in all three states,
the video sender goes vid to sid to vid), keeps the audio track object
identical and unstopped throughout, leaves the negotiation descriptors
unchanged, performs no negotiation action (no offer or answer is created
or sent), and rebuilds the preview stream around the active video
source. -/
theorem screen_share_round_trip (aid vid sid : Nat) (aen ven : Bool)
    (h1 : aid ≠ vid) (h2 : sid ≠ aid) (h3 : sid ≠ vid) :
    senderIds (connState aid vid aen ven) = [some aid, some vid] ∧
    senderIds (shareOn aid vid sid aen ven).1 = [some aid, some sid] ∧
    senderIds (shareOff aid vid sid aen ven).1 = [some aid, some vid] ∧
    findTrack (shareOn aid vid sid aen ven).1.trackHeap aid =
      some ⟨aid, TrackKind.audio, aen, false⟩ ∧
    findTrack (shareOff aid vid sid aen ven).1.trackHeap aid =
      some ⟨aid, TrackKind.audio, aen, false⟩ ∧
    findTrack (shareOff aid vid sid aen ven).1.trackHeap vid =
      some ⟨vid, TrackKind.video, ven, false⟩ ∧
    pcDescs (shareOn aid vid sid aen ven).1 = pcDescs (connState aid vid aen ven) ∧
    pcDescs (shareOff aid vid sid aen ven).1 = pcDescs (connState aid vid aen ven) ∧
    ((shareOn aid vid sid aen ven).2 ++ (shareOff aid vid sid aen ven).2).all
      (fun a => !isNegotiation a) = true ∧
    (shareOn aid vid sid aen ven).1.localStream = some [aid, sid] ∧
    (shareOff aid vid sid aen ven).1.localStream = some [aid, vid] ∧
    (shareOn aid vid sid aen ven).1.isScreenSharing = true ∧
    (shareOff aid vid sid aen ven).1.isScreenSharing = false := by
  have b1 : (aid == vid) = false := by simpa using h1
  have b1s : (vid == aid) = false := by simpa using Ne.symm h1
  have b2 : (sid == aid) = false := by simpa using h2
  have b2s : (aid == sid) = false := by simpa using Ne.symm h2
  have b3 : (sid == vid) = false := by simpa using h3
  have b3s : (vid == sid) = false := by simpa using Ne.symm h3
  simp [shareOn, shareOff, toggleScreenShare, stopScreenShare, connState,
    screenEnv, screenTrack, noMediaEnv, setLocalPreviewStream, hasVideoSender,
    isVideoSenderB, replaceTrackFirstVideo, firstOfKind, kindOf, findTrack,
    enabledOf, setEnabled, stopIds, senderIds, pcDescs, isNegotiation,
    List.find?_cons, h1, Ne.symm h1, h2, Ne.symm h2, h3, Ne.symm h3,
    b1, b1s, b2, b2s, b3, b3s]

theorem screen_share_round_trip_witness :
    ((0 : Nat) ≠ 1 ∧ (2 : Nat) ≠ 0 ∧ (2 : Nat) ≠ 1) ∧
    senderIds (shareOn 0 1 2 true true).1 = [some 0, some 2] ∧
    senderIds (shareOff 0 1 2 true true).1 = [some 0, some 1] ∧
    findTrack (shareOff 0 1 2 true true).1.trackHeap 0 =
      some ⟨0, TrackKind.audio, true, false⟩ :=
  have h := screen_share_round_trip 0 1 2 true true (by decide) (by decide) (by decide)
  ⟨⟨by decide, by decide, by decide⟩, h.2.1, h.2.2.1, h.2.2.2.2.1⟩

end SkillSwap
